import Mathlib

/-!
Shallow embedding of the 6502 emulator core (davidjenni/6502-emu) used to
check the natural-language specification against the implementation.

Conventions of the embedding:
* Machine integers (u8/u16) are `Nat` carrying the value; wrapping operations
  of the source (`wrapping_add`, `as u8`, `as u16` truncations) become explicit
  `% 256` / `% 65536`.  Plain Rust `+`/`-` (which would panic on over/underflow
  in a debug build) are translated as plain `Nat` operations; the theorems
  below only use them under hypotheses that keep them in range.
* Fallible Rust methods returning `Result` are translated to `Except`/`Option`
  results.  Methods taking `&mut self` additionally return the updated state;
  on an early `return Err(..)` the state mutated so far is returned unchanged,
  mirroring in-place mutation semantics.
* A `todo!()` / `.unwrap()` panic is modelled by the `Outcome.panicked` tag.
-/

namespace Emu6502

/-- Error kinds, from lib.rs `CpuError`.  (`InvalidOpcode` carries the
offending byte there; the stale `decoder.rs` omits the payload, the embedding
keeps it.) -/
inductive CpuError where
  | notInitialized
  | invalidAddress
  | invalidAddressingMode
  | invalidOpcode (opcode : Nat)
  | missingOperand
  | stackOverflow
  | readOnlyMemory
deriving DecidableEq, Repr

/-- Addressing modes, from cpu_impl.rs `AddressingMode`. -/
inductive AddressingMode where
  | implied
  | accumulator
  | immediate
  | zeroPage
  | zeroPageX
  | zeroPageY
  | relative
  | absolute
  | absoluteX
  | absoluteY
  | indirect
  | indexedXIndirect
  | indirectIndexedY
deriving DecidableEq, Repr

/-- Status register, from status_register.rs: a u8 bitfield in MSB-first
order `N V _ B D I Z C`. -/
structure StatusRegister where
  negative : Bool
  overflow : Bool
  unusedBit : Bool
  break_command : Bool
  decimal_mode : Bool
  interrupt_disable : Bool
  zero : Bool
  carry : Bool
deriving DecidableEq, Repr

def bitVal (b : Bool) : Nat := if b then 1 else 0

/-- StatusRegister::new / default: the raw u8 is 0, all flags clear. -/
def StatusRegister.new : StatusRegister :=
  ⟨false, false, false, false, false, false, false, false⟩

/-- The raw status byte (bitfield_struct accessor `self.0`). -/
def StatusRegister.get_status (s : StatusRegister) : Nat :=
  128 * bitVal s.negative + 64 * bitVal s.overflow + 32 * bitVal s.unusedBit +
    16 * bitVal s.break_command + 8 * bitVal s.decimal_mode +
    4 * bitVal s.interrupt_disable + 2 * bitVal s.zero + bitVal s.carry

/-- StatusRegister::update_from: N from bit 7 of the value, Z from value == 0;
all other bits untouched. -/
def StatusRegister.update_from (s : StatusRegister) (value : Nat) : StatusRegister :=
  { s with
    negative := decide (value &&& 128 = 128)
    zero := decide (value = 0) }

/-- Memory, from memory.rs `MemoryImpl`: a byte vector of length `size`
(64 KiB by default) plus a list of read-only half-open ranges `[lo, hi)`. -/
structure MemoryImpl where
  memory : Nat → Nat
  size : Nat
  ranges : List (Nat × Nat)

/-- MemoryImpl::new(size): zero-filled bytes, no read-only ranges. -/
def MemoryImpl.new (size : Nat) : MemoryImpl :=
  ⟨fun _ => 0, size, []⟩

/-- Rust `Range<u16>::contains` for a half-open range. -/
def rangeContains (r : Nat × Nat) (address : Nat) : Bool :=
  decide (r.1 ≤ address) && decide (address < r.2)

/-- MemoryImpl::write_byte: bounds check, then (unless `ignore_readonly`)
read-only range check, then store. -/
def MemoryImpl.write_byte (m : MemoryImpl) (address value : Nat)
    (ignore_readonly : Bool) : MemoryImpl × Option CpuError :=
  if m.size ≤ address then
    (m, some .invalidAddress)
  else if !ignore_readonly && m.ranges.any (fun r => rangeContains r address) then
    (m, some .readOnlyMemory)
  else
    ({ m with memory := fun a => if a = address then value else m.memory a }, none)

/-- MemoryImpl::read. -/
def MemoryImpl.read (m : MemoryImpl) (address : Nat) : Except CpuError Nat :=
  if m.size ≤ address then .error .invalidAddress else .ok (m.memory address)

/-- MemoryImpl::write (read-only enforced). -/
def MemoryImpl.write (m : MemoryImpl) (address value : Nat) :
    MemoryImpl × Option CpuError :=
  m.write_byte address value false

/-- MemoryImpl::read_word: little endian, low byte first, high byte at
`address + 1`. -/
def MemoryImpl.read_word (m : MemoryImpl) (address : Nat) : Except CpuError Nat :=
  match m.read address with
  | .error e => .error e
  | .ok lo =>
    match m.read (address + 1) with
    | .error e => .error e
    | .ok hi => .ok (hi <<< 8 ||| lo)

/-- MemoryImpl::read_zero_page_word: the u8 base is cast to u16 and the word
is read with `read_word` (so the high byte comes from `base + 1` as a plain
16-bit address). -/
def MemoryImpl.read_zero_page_word (m : MemoryImpl) (address : Nat) :
    Except CpuError Nat :=
  m.read_word address

/-- MemoryImpl::write_word: low byte (`value as u8`) at `address`, high byte
(`(value >> 8) as u8`) at `address + 1`; a failure of the second write leaves
the first one applied. -/
def MemoryImpl.write_word (m : MemoryImpl) (address value : Nat) :
    MemoryImpl × Option CpuError :=
  match m.write address (value % 256) with
  | (m₁, some e) => (m₁, some e)
  | (m₁, none) => m₁.write (address + 1) ((value >>> 8) % 256)

/-- MemoryImpl::load_program: sequential writes bypassing the read-only
check.  Always succeeds for in-range targets. -/
def MemoryImpl.load_program (m : MemoryImpl) (start_addr : Nat) :
    List Nat → MemoryImpl × Option CpuError
  | [] => (m, none)
  | byte :: rest =>
    match m.write_byte start_addr byte true with
    | (m₁, some e) => (m₁, some e)
    | (m₁, none) => m₁.load_program (start_addr + 1) rest

/-- StackPointerImpl::sp_as_u16: the effective address `0x0100 | sp`. -/
def sp_as_u16 (sp : Nat) : Nat := 0x0100 ||| sp

/-- StackPointerImpl::push_byte, from stack_pointer.rs.  The overflow guard
(`sp == 0x00`) is checked before any write; `wrapping_sub(1)` on the u8 SP
becomes `(sp + 255) % 256`. -/
def push_byte (sp : Nat) (m : MemoryImpl) (value : Nat) :
    Nat × MemoryImpl × Option CpuError :=
  if sp = 0x00 then
    (sp, m, some .stackOverflow)
  else
    match m.write (sp_as_u16 sp) value with
    | (m₁, some e) => (sp, m₁, some e)
    | (m₁, none) => ((sp + 255) % 256, m₁, none)

/-- StackPointerImpl::pop_byte: guard `sp == 0xFF`, then increment SP, then
read (so a failed read leaves SP already incremented). -/
def pop_byte (sp : Nat) (m : MemoryImpl) :
    Nat × MemoryImpl × Except CpuError Nat :=
  if sp = 0xFF then
    (sp, m, .error .stackOverflow)
  else
    match (sp + 1) % 256 with
    | sp₁ =>
      match m.read (sp_as_u16 sp₁) with
      | .error e => (sp₁, m, .error e)
      | .ok value => (sp₁, m, .ok value)

/-- StackPointerImpl::push_word: guard `sp <= 0x01`, then one little-endian
word write starting at `sp_as_u16 - 1`, then SP decremented by 2 (wrapping). -/
def push_word (sp : Nat) (m : MemoryImpl) (value : Nat) :
    Nat × MemoryImpl × Option CpuError :=
  if sp ≤ 0x01 then
    (sp, m, some .stackOverflow)
  else
    match m.write_word (sp_as_u16 sp - 1) value with
    | (m₁, some e) => (sp, m₁, some e)
    | (m₁, none) => ((sp + 254) % 256, m₁, none)

/-- StackPointerImpl::pop_word: guard `sp >= 0xFE`, then increment SP, read
the little-endian word there, and increment SP once more. -/
def pop_word (sp : Nat) (m : MemoryImpl) :
    Nat × MemoryImpl × Except CpuError Nat :=
  if 0xFE ≤ sp then
    (sp, m, .error .stackOverflow)
  else
    match (sp + 1) % 256 with
    | sp₁ =>
      match m.read_word (sp_as_u16 sp₁) with
      | .error e => (sp₁, m, .error e)
      | .ok value => ((sp₁ + 1) % 256, m, .ok value)

/-- CPU state, from cpu_impl.rs `CpuImpl`: registers, status, the owned
memory, the address bus program counter and the stack pointer (only the
variable u8 of `StackPointerImpl`), plus the two accumulated counters. -/
structure CpuImpl where
  accumulator : Nat
  index_x : Nat
  index_y : Nat
  status : StatusRegister
  memory : MemoryImpl
  pc : Nat
  sp : Nat
  accumulated_cycles : Nat
  accumulated_instructions : Nat

/-- CpuImpl::new: zero registers, fresh status, default 64 KiB memory,
PC 0, SP 0xFF, zero counters. -/
def CpuImpl.new : CpuImpl :=
  ⟨0, 0, 0, StatusRegister.new, MemoryImpl.new 65536, 0, 0xFF, 0, 0⟩

/-- AddressBus::set_pc: bounds check against the memory size. -/
def set_pc (c : CpuImpl) (address : Nat) : CpuImpl × Option CpuError :=
  if c.memory.size ≤ address then (c, some .invalidAddress)
  else ({ c with pc := address }, none)

/-- AddressBus::fetch_byte_at_pc: read the byte at PC, then advance PC by 1. -/
def fetch_byte_at_pc (c : CpuImpl) : CpuImpl × Except CpuError Nat :=
  match c.memory.read c.pc with
  | .error e => (c, .error e)
  | .ok op => ({ c with pc := c.pc + 1 }, .ok op)

/-- AddressBus::fetch_word_at_pc: two byte fetches, little endian. -/
def fetch_word_at_pc (c : CpuImpl) : CpuImpl × Except CpuError Nat :=
  match fetch_byte_at_pc c with
  | (c₁, .error e) => (c₁, .error e)
  | (c₁, .ok lo) =>
    match fetch_byte_at_pc c₁ with
    | (c₂, .error e) => (c₂, .error e)
    | (c₂, .ok hi) => (c₂, .ok (hi <<< 8 ||| lo))

/-- CpuImpl::reset, from cpu_impl.rs: stack reset (SP ← 0xFF), PC ← the
RESET vector 0xFFFC, A/X/Y ← 0, `status.update_from(accumulator)` (with the
accumulator already 0), counters ← 0.  Note the status register is only
passed through `update_from`, which touches N and Z alone. -/
def CpuImpl.reset (c : CpuImpl) : CpuImpl × Option CpuError :=
  let c := { c with sp := 0xFF }
  match set_pc c 0xFFFC with
  | (c, some e) => (c, some e)
  | (c, none) =>
    let c := { c with accumulator := 0, index_x := 0, index_y := 0 }
    let c := { c with status := c.status.update_from c.accumulator }
    ({ c with accumulated_cycles := 0, accumulated_instructions := 0 }, none)

/-- Sign extension of a u8 reinterpreted as i8 and cast to u16
(`offset as i8 as u16`). -/
def sign_extend (b : Nat) : Nat :=
  if b < 128 then b else 0xFF00 + b

/-- CpuImpl::get_effective_address, from cpu_impl.rs: fetches operand bytes
according to the addressing mode (advancing PC past them) and computes the
effective address.  Implied, Accumulator and Immediate yield
`InvalidAddressingMode`.  The source lets IndexedXIndirect and
IndirectIndexedY recurse into the ZeroPageX / ZeroPage arms; those two calls
are inlined here so the definition is structurally recursive. -/
def get_effective_address (mode : AddressingMode) (c : CpuImpl) :
    CpuImpl × Except CpuError Nat :=
  match mode with
  | .zeroPage => fetch_byte_at_pc c
  | .zeroPageX =>
    match fetch_byte_at_pc c with
    | (c₁, .error e) => (c₁, .error e)
    | (c₁, .ok b) => (c₁, .ok ((b + c₁.index_x) % 256))
  | .zeroPageY =>
    match fetch_byte_at_pc c with
    | (c₁, .error e) => (c₁, .error e)
    | (c₁, .ok b) => (c₁, .ok ((b + c₁.index_y) % 256))
  | .relative =>
    match fetch_byte_at_pc c with
    | (c₁, .error e) => (c₁, .error e)
    | (c₁, .ok offset) => (c₁, .ok ((c₁.pc + sign_extend offset) % 65536))
  | .absolute => fetch_word_at_pc c
  | .absoluteX =>
    match fetch_word_at_pc c with
    | (c₁, .error e) => (c₁, .error e)
    | (c₁, .ok word) => (c₁, .ok (word + c₁.index_x))
  | .absoluteY =>
    match fetch_word_at_pc c with
    | (c₁, .error e) => (c₁, .error e)
    | (c₁, .ok word) => (c₁, .ok (word + c₁.index_y))
  | .indirect =>
    match fetch_word_at_pc c with
    | (c₁, .error e) => (c₁, .error e)
    | (c₁, .ok indirect_addr) =>
      match c₁.memory.read indirect_addr with
      | .error e => (c₁, .error e)
      | .ok low_indirect =>
        match (if indirect_addr &&& 0xFF = 0xFF then
                c₁.memory.read (indirect_addr &&& 0xFF00)
              else
                c₁.memory.read (indirect_addr + 1)) with
        | .error e => (c₁, .error e)
        | .ok high_indirect => (c₁, .ok (high_indirect <<< 8 ||| low_indirect))
  | .indexedXIndirect =>
    match fetch_byte_at_pc c with
    | (c₁, .error e) => (c₁, .error e)
    | (c₁, .ok b) =>
      let zero_page_addr := (b + c₁.index_x) % 256
      (c₁, c₁.memory.read_zero_page_word (zero_page_addr % 256))
  | .indirectIndexedY =>
    match fetch_byte_at_pc c with
    | (c₁, .error e) => (c₁, .error e)
    | (c₁, .ok zero_page_addr) =>
      match c₁.memory.read_zero_page_word (zero_page_addr % 256) with
      | .error e => (c₁, .error e)
      | .ok word => (c₁, .ok (word + c₁.index_y))
  | _ => (c, .error .invalidAddressingMode)

/-- CpuImpl::get_effective_operand: Immediate fetches the next byte,
Accumulator returns A, Relative is invalid, all other modes dereference the
effective address (Implied falls through to `get_effective_address`, which
rejects it). -/
def get_effective_operand (mode : AddressingMode) (c : CpuImpl) :
    CpuImpl × Except CpuError Nat :=
  match mode with
  | .immediate => fetch_byte_at_pc c
  | .accumulator => (c, .ok c.accumulator)
  | .relative => (c, .error .invalidAddressingMode)
  | _ =>
    match get_effective_address mode c with
    | (c₁, .error e) => (c₁, .error e)
    | (c₁, .ok effective_address) => (c₁, c₁.memory.read effective_address)

/-- Result of running an instruction handler: normal return, a propagated
`CpuError`, or an aborted process (`todo!()` / `.unwrap()` on an `Err`). -/
inductive Outcome where
  | ok
  | err (e : CpuError)
  | panicked
deriving DecidableEq, Repr

/-- execute_sec, from engine/ops/flag_compare.rs: Implied only
(`validate_mode`), sets the carry flag. -/
def execute_sec (mode : AddressingMode) (c : CpuImpl) : CpuImpl × Outcome :=
  if mode ≠ .implied then (c, .err .invalidAddressingMode)
  else ({ c with status := { c.status with carry := true } }, .ok)

/-- execute_sta, from engine/ops/transfer.rs: resolve the effective address,
write the accumulator through the bus with `.unwrap()` (a failing write — for
example into a read-only range — panics), then `update_from` on the stored
value. -/
def execute_sta (mode : AddressingMode) (c : CpuImpl) : CpuImpl × Outcome :=
  match get_effective_address mode c with
  | (c₁, .error e) => (c₁, .err e)
  | (c₁, .ok effective_address) =>
    match c₁.memory.write effective_address c₁.accumulator with
    | (m, some _) => ({ c₁ with memory := m }, .panicked)
    | (m, none) =>
      ({ c₁ with memory := m, status := c₁.status.update_from c₁.accumulator }, .ok)

/-- execute_stx, from engine/ops/transfer.rs: like STA but the write error is
propagated with `?` instead of unwrapped. -/
def execute_stx (mode : AddressingMode) (c : CpuImpl) : CpuImpl × Outcome :=
  match get_effective_address mode c with
  | (c₁, .error e) => (c₁, .err e)
  | (c₁, .ok effective_address) =>
    match c₁.memory.write effective_address c₁.index_x with
    | (m, some e) => ({ c₁ with memory := m }, .err e)
    | (m, none) =>
      ({ c₁ with memory := m, status := c₁.status.update_from c₁.index_x }, .ok)

/-- execute_sty, from engine/ops/transfer.rs. -/
def execute_sty (mode : AddressingMode) (c : CpuImpl) : CpuImpl × Outcome :=
  match get_effective_address mode c with
  | (c₁, .error e) => (c₁, .err e)
  | (c₁, .ok effective_address) =>
    match c₁.memory.write effective_address c₁.index_y with
    | (m, some e) => ({ c₁ with memory := m }, .err e)
    | (m, none) =>
      ({ c₁ with memory := m, status := c₁.status.update_from c₁.index_y }, .ok)

/-- is_overflow, from engine/ops/alu.rs: `(result & 0x80) as u8` is bit 7 of
the i16 result in two's complement, i.e. bit 7 of `result mod 256`; overflow
is flagged when both operands share a sign that differs from the result's. -/
def is_overflow (a b : Nat) (result_high_bit : Int) : Bool :=
  let high_bit : Nat := (result_high_bit.emod 256).toNat &&& 0x80
  let a_sign := a &&& 0x80
  let b_sign := b &&& 0x80
  decide (a_sign = b_sign) && decide (a_sign ≠ high_bit)

/-- subtract_with_carry, from engine/ops/alu.rs: i16 arithmetic
`register - operand + borrow` where `borrow` is 0 when the carry is set and
1 when it is clear (note the `+`); returns the truncated u8 result, the new
carry (`result >= 0`) and the overflow flag. -/
def subtract_with_carry (register operand : Nat) (carry : Bool) :
    Nat × Bool × Bool :=
  let borrow : Int := if carry then 0 else 1
  let result : Int := (register : Int) - (operand : Int) + borrow
  let overflow := is_overflow register operand result
  (((result.emod 256).toNat, decide (0 ≤ result), overflow))

/-- execute_sbc, from engine/ops/alu.rs: `todo!()` on decimal mode, else
fetch the operand, run `subtract_with_carry`, then set V, store the
accumulator, `update_from` it, and set C. -/
def execute_sbc (mode : AddressingMode) (c : CpuImpl) : CpuImpl × Outcome :=
  if c.status.decimal_mode then (c, .panicked)
  else
    match get_effective_operand mode c with
    | (c₁, .error e) => (c₁, .err e)
    | (c₁, .ok operand) =>
      match subtract_with_carry c₁.accumulator operand c₁.status.carry with
      | (acc, carry, overflow) =>
        let st := { c₁.status with overflow := overflow }
        let st := st.update_from acc
        let st := { st with carry := carry }
        ({ c₁ with accumulator := acc, status := st }, .ok)

/-- execute_brk, from engine/ops/interrupt.rs: Implied only; push
`pc.wrapping_add(1)` as a word (skipping the signature byte), push the status
byte with the Break bit OR-ed in, then — the "HACK" in the source — set the
Break flag on the live status register as well.  The jump to the IRQ vector
0xFFFE is commented out (`TODO`), so PC is left unchanged. -/
def execute_brk (mode : AddressingMode) (c : CpuImpl) : CpuImpl × Outcome :=
  if mode ≠ .implied then (c, .err .invalidAddressingMode)
  else
    let pc := (c.pc + 1) % 65536
    match push_word c.sp c.memory pc with
    | (sp, m, some e) => ({ c with sp := sp, memory := m }, .err e)
    | (sp, m, none) =>
      let status := c.status.get_status
      match push_byte sp m (status ||| 0b00010000) with
      | (sp₁, m₁, some e) => ({ c with sp := sp₁, memory := m₁ }, .err e)
      | (sp₁, m₁, none) =>
        let st := { c.status with break_command := true }
        ({ c with sp := sp₁, memory := m₁, status := st }, .ok)

/-- execute_jsr, from engine/ops/branch_jump.rs: resolve the absolute target
(PC moves past the two operand bytes), remember `pc - 1` (the address of the
last byte of the 3-byte instruction), jump, then push the return address. -/
def execute_jsr (mode : AddressingMode) (c : CpuImpl) : CpuImpl × Outcome :=
  match get_effective_address mode c with
  | (c₁, .error e) => (c₁, .err e)
  | (c₁, .ok effective_address) =>
    let return_address := c₁.pc - 1
    match set_pc c₁ effective_address with
    | (c₂, some e) => (c₂, .err e)
    | (c₂, none) =>
      match push_word c₂.sp c₂.memory return_address with
      | (sp, m, some e) => ({ c₂ with sp := sp, memory := m }, .err e)
      | (sp, m, none) => ({ c₂ with sp := sp, memory := m }, .ok)

/-- execute_rts, from engine/ops/branch_jump.rs: Implied only; pop a word and
set PC to it plus 1. -/
def execute_rts (mode : AddressingMode) (c : CpuImpl) : CpuImpl × Outcome :=
  if mode ≠ .implied then (c, .err .invalidAddressingMode)
  else
    match pop_word c.sp c.memory with
    | (sp, m, .error e) => ({ c with sp := sp, memory := m }, .err e)
    | (sp, m, .ok pc) =>
      match set_pc { c with sp := sp, memory := m } (pc + 1) with
      | (c₁, some e) => (c₁, .err e)
      | (c₁, none) => (c₁, .ok)

/-- Mnemonics, from engine/opcodes.rs `OpCode`. -/
inductive OpCode where
  | ADC | AND | ASL | BCC | BCS | BEQ | BIT | BMI | BNE | BPL | BRK | BVC
  | BVS | CLC | CLD | CLI | CLV | CMP | CPX | CPY | DEC | DEX | DEY | EOR
  | INC | INX | INY | JMP | JSR | LDA | LDX | LDY | LSR | NOP | ORA | PHA
  | PHP | PLA | PLP | ROL | ROR | RTI | RTS | SBC | SEC | SED | SEI | STA
  | STX | STY | TAX | TAY | TSX | TXA | TXS | TYA
deriving DecidableEq, Repr

/-- Handler function pointers of the decode table, modelled as named tags
(each tag names the `execute_*` function stored in the source table). -/
inductive HandlerTag where
  | nopHandler
  | brkHandler
  | ldaHandler
  | ldxHandler
  | ldyHandler
  | staHandler
  | stxHandler
  | styHandler
  | sbcHandler
  | bmiHandler
  | jmpHandler
  | beqHandler
  | secHandler
deriving DecidableEq, Repr

/-- Decoded instruction record, from engine/decoder.rs `DecodedInstruction`. -/
structure DecodedInstruction where
  opcode : OpCode
  mode : AddressingMode
  execute : HandlerTag
deriving DecidableEq, Repr

/-- decode, from engine/decoder.rs: the opcode table.  Any byte outside the
table falls through to `Err(CpuError::InvalidOpcode)` (the error payload is
the byte, per the `InvalidOpcode(u8)` declaration in lib.rs). -/
def decode (opcode : Nat) : Except CpuError DecodedInstruction :=
  match opcode with
  | 0xEA => .ok ⟨.NOP, .implied, .nopHandler⟩
  | 0x00 => .ok ⟨.BRK, .implied, .brkHandler⟩
  | 0xA4 => .ok ⟨.LDY, .zeroPage, .ldyHandler⟩
  | 0xA5 => .ok ⟨.LDA, .zeroPage, .ldaHandler⟩
  | 0xA6 => .ok ⟨.LDX, .zeroPage, .ldxHandler⟩
  | 0xA9 => .ok ⟨.LDA, .immediate, .ldaHandler⟩
  | 0x84 => .ok ⟨.STY, .zeroPage, .styHandler⟩
  | 0x85 => .ok ⟨.STA, .zeroPage, .staHandler⟩
  | 0x86 => .ok ⟨.STX, .zeroPage, .stxHandler⟩
  | 0xE5 => .ok ⟨.SBC, .zeroPage, .sbcHandler⟩
  | 0x30 => .ok ⟨.BMI, .relative, .bmiHandler⟩
  | 0x4C => .ok ⟨.JMP, .absolute, .jmpHandler⟩
  | 0xF0 => .ok ⟨.BEQ, .relative, .beqHandler⟩
  | 0x38 => .ok ⟨.SEC, .implied, .secHandler⟩
  | _ => .error (.invalidOpcode opcode)

/-- Trap kind, from cpu_traps.rs `CpuTrap`. -/
inductive CpuTrap where
  | byInstruction (opcode : Nat)
  | byAddress (addr : Nat)
deriving DecidableEq, Repr

/-- Trap outcome status, from cpu_traps.rs `TrapOutcomeStatus`. -/
inductive TrapOutcomeStatus where
  | Continue
  | Handled
  | Stop
  | StopAfter
deriving DecidableEq, Repr

/-- Trap result payload, from cpu_traps.rs `TrapResult`. -/
structure TrapResult where
  accumulator : Nat
  index_x : Nat
  index_y : Nat
  status : Nat
deriving DecidableEq, Repr

/-- Trap outcome, from cpu_traps.rs `TrapOutcome`. -/
structure TrapOutcome where
  status : TrapOutcomeStatus
  triggered_by : Option CpuTrap
  result : Option TrapResult
deriving DecidableEq, Repr

/-- A registered trap, from cpu_traps.rs `Trap`. -/
structure Trap where
  cpu_trap : CpuTrap
  requested_outcome : TrapOutcomeStatus
deriving DecidableEq, Repr

/-- The trap door: ordered address-trap and opcode-trap lists, from
cpu_traps.rs `TrapDoor`. -/
structure TrapDoor where
  address_traps : List Trap
  opcode_traps : List Trap
deriving DecidableEq, Repr

/-- TrapDoor::new: empty lists, then `add_brk_trap` pushes the built-in BRK
(0x00) opcode trap with requested outcome StopAfter. -/
def TrapDoor.new : TrapDoor :=
  ⟨[], [⟨.byInstruction 0x00, .StopAfter⟩]⟩

/-- The scan loop of `pre_execute`: first trap in insertion order whose
`cpu_trap` equals the probe. -/
def scanTraps (probe : CpuTrap) : List Trap → Option Trap
  | [] => none
  | trap :: rest => if probe = trap.cpu_trap then some trap else scanTraps probe rest

/-- TrapDoor::pre_execute, from cpu_traps.rs: address traps take precedence
and yield their requested outcome; opcode traps (matched on the raw opcode
byte of the decoded instruction) yield StopAfter; otherwise Continue.  The
`Result` wrapper never carries an error. -/
def pre_execute (td : TrapDoor) (hex_opcode : Nat) (address : Nat) :
    Except CpuError TrapOutcome :=
  let try_address := CpuTrap.byAddress address
  match scanTraps try_address td.address_traps with
  | some trap => .ok ⟨trap.requested_outcome, some try_address, none⟩
  | none =>
    let try_op_code := CpuTrap.byInstruction hex_opcode
    match scanTraps try_op_code td.opcode_traps with
    | some _ => .ok ⟨.StopAfter, some try_op_code, none⟩
    | none => .ok ⟨.Continue, none, none⟩

instance {ε α : Type} [DecidableEq ε] [DecidableEq α] : DecidableEq (Except ε α)
  | .error e, .error f =>
    if h : e = f then .isTrue (by rw [h]) else .isFalse (by simp [h])
  | .error _, .ok _ => .isFalse (by simp)
  | .ok _, .error _ => .isFalse (by simp)
  | .ok a, .ok b =>
    if h : a = b then .isTrue (by rw [h]) else .isFalse (by simp [h])

/-! Concrete machine states used to evaluate the handlers on the inputs
discussed in the theorems below. -/

/-- A zeroed 64 KiB memory image with a few bytes set: the pointer low byte
0xAB at 0x0000, 0xCD at 0x00FF and 0xEE at 0x0100 (exercises the zero-page
word read at base 0xFF). -/
def zpMem : MemoryImpl :=
  ⟨fun a => if a = 0x0000 then 0xAB else if a = 0x00FF then 0xCD
    else if a = 0x0100 then 0xEE else 0, 65536, []⟩

/-- CPU about to run the BRK handler: the opcode was fetched at 0x0123, so
PC is 0x0124; registers and status are fresh, SP is 0xFF. -/
def brkCpu : CpuImpl := { CpuImpl.new with pc := 0x0124 }

/-- CPU about to run SBC Immediate with A = 5 and operand byte 3 at PC
(= 0x0200), carry clear, decimal clear. -/
def sbcCpu : CpuImpl :=
  { CpuImpl.new with
      pc := 0x0200
      accumulator := 5
      memory := ⟨fun a => if a = 0x0200 then 3 else 0, 65536, []⟩ }

/-- CPU about to run a zero-page store: the operand byte 0xE0 sits at PC
(= 0x0300) and the zero-page target 0x00E0 lies inside the registered
read-only range [0x00E0, 0x00E1). -/
def roCpu : CpuImpl :=
  { CpuImpl.new with
      pc := 0x0300
      accumulator := 0x09
      index_x := 0x42
      index_y := 0x07
      memory := ⟨fun a => if a = 0x0300 then 0xE0 else 0, 65536, [(0xE0, 0xE1)]⟩ }

/-- CPU about to resolve an Indirect operand: the pointer bytes 0xFF 0x02
(pointer 0x02FF) sit at PC = 0x0301, the indirect word low byte 0x34 at
0x02FF and — because of the page-wrap bug — the high byte 0x12 at 0x0200. -/
def indCpu : CpuImpl :=
  { CpuImpl.new with
      pc := 0x0301
      memory := ⟨fun a => if a = 0x0301 then 0xFF else if a = 0x0302 then 0x02
        else if a = 0x02FF then 0x34 else if a = 0x0200 then 0x12 else 0, 65536, []⟩ }

/-- CPU about to run the JSR handler: the JSR opcode sits at 0x0123, PC is
already past it (0x0124) and the absolute operand bytes 0x32 0x54 encode the
target 0x5432. -/
def jsrCpu : CpuImpl :=
  { CpuImpl.new with
      pc := 0x0124
      memory := ⟨fun a => if a = 0x0124 then 0x32 else if a = 0x0125 then 0x54 else 0,
        65536, []⟩ }

/-- The CPU state after SEC has set the carry: a state reachable from a
fresh CPU by executing one instruction. -/
def secCpu : CpuImpl := (execute_sec .implied CpuImpl.new).1

/-! Claim theorems. -/

/-- C1: the claim states that BRK pushes PC+1 as a word, pushes the status
byte with the B bit set on the pushed copy only, and finally sets PC to the
IRQ vector 0xFFFE.  Evaluating `execute_brk` at a concrete state (opcode
fetched at 0x0123, PC = 0x0124, SP = 0xFF, status byte 0) shows that the two
pushes happen as claimed (word 0x0125 at 0x01FE/0x01FF, status byte 0x10 at
0x01FD), but PC is left at 0x0124 — not set to 0xFFFE — and the B flag is
also set on the live status register, not only on the pushed copy. -/
theorem brk_no_irq_jump_eval :
    (execute_brk .implied brkCpu).2 = .ok ∧
    (execute_brk .implied brkCpu).1.memory.memory 0x01FF = 0x01 ∧
    (execute_brk .implied brkCpu).1.memory.memory 0x01FE = 0x25 ∧
    (execute_brk .implied brkCpu).1.memory.memory 0x01FD = 0x10 ∧
    (execute_brk .implied brkCpu).1.sp = 0xFC ∧
    (execute_brk .implied brkCpu).1.pc = 0x0124 ∧
    (0x0124 : Nat) ≠ 0xFFFE ∧
    (execute_brk .implied brkCpu).1.status.break_command = true := by
  decide

/-- C2: the claim states that SBC stores A - M - (1-C) mod 256, so with the
carry clear it computes A - M - 1, and that V follows the canonical signed
rule applied to the complemented operand.  The source adds the borrow
instead of subtracting it: with A = 5, M = 3, C = 0 the code yields 3
(5 - 3 + 1) where the claim requires 1 (5 - 3 - 1); with A = 0, M = 0, C = 0
it yields 1 with carry set where the claim requires 0xFF with a borrow; and
with A = 4, M = 9, C = 1 it sets V (its rule uses M, not the complement)
where the canonical rule applied to the complement leaves V clear. -/
theorem sbc_adds_borrow_eval :
    subtract_with_carry 5 3 false = (3, true, false) ∧
    (3 : Nat) ≠ 1 ∧
    subtract_with_carry 0 0 false = (1, true, false) ∧
    (1 : Nat) ≠ 0xFF ∧
    subtract_with_carry 4 9 true = (0xFB, false, true) ∧
    (execute_sbc .immediate sbcCpu).1.accumulator = 3 ∧
    (execute_sbc .immediate sbcCpu).2 = .ok := by
  decide

/-- C3: the claim states that STA/STX/STY into a registered read-only range
return success, leaving the cell unchanged (the write swallowed silently).
Evaluating the handlers on a zero-page store whose target 0x00E0 lies in the
read-only range [0x00E0, 0x00E1) shows instead that STX and STY propagate
the ReadOnlyMemory error and STA panics (it unwraps the failed write); only
the untouched-memory half of the claim holds. -/
theorem store_readonly_not_swallowed_eval :
    (execute_stx .zeroPage roCpu).2 = .err .readOnlyMemory ∧
    (execute_sty .zeroPage roCpu).2 = .err .readOnlyMemory ∧
    (execute_sta .zeroPage roCpu).2 = .panicked ∧
    Outcome.err .readOnlyMemory ≠ .ok ∧
    Outcome.panicked ≠ .ok ∧
    (execute_stx .zeroPage roCpu).1.memory.memory 0xE0 = 0 ∧
    (execute_sty .zeroPage roCpu).1.memory.memory 0xE0 = 0 ∧
    (execute_sta .zeroPage roCpu).1.memory.memory 0xE0 = 0 := by
  decide

/-- C4: the claim states that every opcode byte outside the table decodes to
a synthetic ILL(byte) instruction (Implied, 0 cycles, 0 extra bytes, BRK
handler) rather than an error.  The decoder in the source instead falls
through to `Err(CpuError::InvalidOpcode)`, which `fetch_and_decode` and
`step` propagate with `?`: evaluating at the unknown bytes 0xFF and 0x02
yields errors, not instructions. -/
theorem decode_unknown_opcode_errors :
    decode 0xFF = .error (.invalidOpcode 0xFF) ∧
    decode 0x02 = .error (.invalidOpcode 0x02) := by
  decide

/-- C6: the claim states that the zero-page word read at base B takes its
high byte from B.wrapping_add(1) inside page 0, so base 0xFF reads the high
byte from 0x0000.  `MemoryImpl::read_zero_page_word` delegates to
`read_word(base as u16)`, which reads the high byte from the plain 16-bit
address B + 1: with 0xAB at 0x0000, 0xCD at 0x00FF and 0xEE at 0x0100 the
code returns 0xEECD (high byte from 0x0100) where the claim requires 0xABCD
(high byte wrapped to 0x0000). -/
theorem read_zero_page_word_no_wrap_eval :
    zpMem.read_zero_page_word 0xFF = .ok 0xEECD ∧
    (0xEECD : Nat) ≠ 0xABCD := by
  decide

/-- C5 (counterexample): the claim asserts that after reset() the whole
status byte is exactly 0b00000010 for every reachable CPU state.  Starting
from a fresh CPU and executing SEC (a reachable state with the carry set),
reset() leaves the carry bit alone — `update_from(0)` touches only N and
Z — so the status byte is 0b00000011. -/
theorem reset_keeps_prior_flags_cex :
    (CpuImpl.reset secCpu).2 = none ∧
    (CpuImpl.reset secCpu).1.status.get_status = 0b00000011 ∧
    (0b00000011 : Nat) ≠ 0b00000010 := by
  decide

/-- C5 (amended): after reset() the registers satisfy A = X = Y = 0,
SP = 0xFF, PC = 0xFFFC and both accumulated counters are 0; the status
register gets N cleared and Z set while every other flag bit (C, V, D, I, B
and the unused bit) keeps its pre-reset value — the whole byte is
0b00000010 only when those bits were already clear. -/
theorem reset_spec (c : CpuImpl) (h : 0xFFFC < c.memory.size) :
    CpuImpl.reset c =
      ({ c with
          sp := 0xFF
          pc := 0xFFFC
          accumulator := 0
          index_x := 0
          index_y := 0
          status := { c.status with negative := false, zero := true }
          accumulated_cycles := 0
          accumulated_instructions := 0 }, none) := by
  have hx : ¬ (c.memory.size ≤ 0xFFFC) := by omega
  unfold CpuImpl.reset set_pc
  simp only [if_neg hx]
  rfl

/-- Witness for C5: the amended reset theorem applied to the concrete
post-SEC state. -/
theorem reset_spec_witness :
    0xFFFC < secCpu.memory.size ∧
    CpuImpl.reset secCpu =
      ({ secCpu with
          sp := 0xFF
          pc := 0xFFFC
          accumulator := 0
          index_x := 0
          index_y := 0
          status := { secCpu.status with negative := false, zero := true }
          accumulated_cycles := 0
          accumulated_instructions := 0 }, none) :=
  ⟨by decide, reset_spec secCpu (by decide)⟩

/-- The scan loop of `pre_execute` is List.find? over the trap list: the
first trap in insertion order whose kind matches the probe. -/
theorem scanTraps_eq_find (probe : CpuTrap) (l : List Trap) :
    scanTraps probe l = l.find? (fun trap => trap.cpu_trap == probe) := by
  induction l with
  | nil => rfl
  | cons t rest ih =>
    by_cases h : probe = t.cpu_trap
    · simp [scanTraps, List.find?, h]
    · simp only [scanTraps, if_neg h, List.find?]
      rw [ih]
      have : (t.cpu_trap == probe) = false := by
        simp [BEq.beq]
        exact fun hh => h hh.symm
      simp [this]

/-- C8: pre_execute scans the address traps in insertion order and returns a
matching trap's requested outcome; otherwise it scans the opcode traps in
insertion order and returns StopAfter on a raw-opcode match; otherwise it
returns Continue.  A fresh TrapDoor has no address traps and exactly one
opcode trap, on BRK (0x00), with requested outcome StopAfter. -/
theorem pre_execute_spec (td : TrapDoor) (hex_opcode address : Nat) :
    (pre_execute td hex_opcode address =
      match td.address_traps.find? (fun trap => trap.cpu_trap == CpuTrap.byAddress address) with
      | some trap => .ok ⟨trap.requested_outcome, some (.byAddress address), none⟩
      | none =>
        match td.opcode_traps.find? (fun trap => trap.cpu_trap == CpuTrap.byInstruction hex_opcode) with
        | some _ => .ok ⟨.StopAfter, some (.byInstruction hex_opcode), none⟩
        | none => .ok ⟨.Continue, none, none⟩) ∧
    TrapDoor.new.address_traps = [] ∧
    TrapDoor.new.opcode_traps = [⟨.byInstruction 0x00, .StopAfter⟩] := by
  refine ⟨?_, rfl, rfl⟩
  simp only [pre_execute, scanTraps_eq_find]

/-- Memory writes never report a stack overflow (their only failure modes
are InvalidAddress and ReadOnlyMemory). -/
theorem write_no_stack_overflow (m : MemoryImpl) (a v : Nat) :
    (m.write a v).2 ≠ some .stackOverflow := by
  unfold MemoryImpl.write MemoryImpl.write_byte
  split
  · simp
  · split <;> simp

/-- Word writes never report a stack overflow. -/
theorem write_word_no_stack_overflow (m : MemoryImpl) (a v : Nat) :
    (m.write_word a v).2 ≠ some .stackOverflow := by
  unfold MemoryImpl.write_word
  rcases hw : m.write a (v % 256) with ⟨m₁, e⟩
  cases e with
  | none => simp [hw]; exact write_no_stack_overflow m₁ (a + 1) ((v >>> 8) % 256)
  | some err =>
    have := write_no_stack_overflow m a (v % 256)
    rw [hw] at this
    simp [hw]
    rintro rfl
    exact this rfl

/-- Memory reads never report a stack overflow. -/
theorem read_no_stack_overflow (m : MemoryImpl) (a : Nat) :
    m.read a ≠ .error .stackOverflow := by
  unfold MemoryImpl.read
  split <;> simp

/-- Word reads never report a stack overflow. -/
theorem read_word_no_stack_overflow (m : MemoryImpl) (a : Nat) :
    m.read_word a ≠ .error .stackOverflow := by
  unfold MemoryImpl.read_word
  rcases hr : m.read a with e | lo
  · have := read_no_stack_overflow m a
    rw [hr] at this
    simp
    rintro rfl
    exact this rfl
  · rcases hr2 : m.read (a + 1) with e | hi
    · have := read_no_stack_overflow m (a + 1)
      rw [hr2] at this
      simp
      rintro rfl
      exact this rfl
    · simp

/-- C10: each of the four stack operations returns StackOverflow exactly
under its guard condition (push_byte at SP = 0x00, pop_byte at SP = 0xFF,
push_word at SP ≤ 0x01, pop_word at SP ≥ 0xFE), and whenever it does, the
guard fired before any mutation: the returned SP and memory are exactly the
ones passed in. -/
theorem stack_overflow_guards (sp : Nat) (m : MemoryImpl) (value : Nat) :
    ((push_byte sp m value).2.2 = some .stackOverflow ↔ sp = 0x00) ∧
    (sp = 0x00 → push_byte sp m value = (sp, m, some .stackOverflow)) ∧
    ((pop_byte sp m).2.2 = .error .stackOverflow ↔ sp = 0xFF) ∧
    (sp = 0xFF → pop_byte sp m = (sp, m, .error .stackOverflow)) ∧
    ((push_word sp m value).2.2 = some .stackOverflow ↔ sp ≤ 0x01) ∧
    (sp ≤ 0x01 → push_word sp m value = (sp, m, some .stackOverflow)) ∧
    ((pop_word sp m).2.2 = .error .stackOverflow ↔ 0xFE ≤ sp) ∧
    (0xFE ≤ sp → pop_word sp m = (sp, m, .error .stackOverflow)) := by
  refine ⟨?_, ?_, ?_, ?_, ?_, ?_, ?_, ?_⟩
  · unfold push_byte
    split
    · simp; assumption
    · rcases hw : m.write (sp_as_u16 sp) value with ⟨m₁, e⟩
      have hno := write_no_stack_overflow m (sp_as_u16 sp) value
      rw [hw] at hno
      cases e <;> simp_all
  · intro h; unfold push_byte; simp [h]
  · unfold pop_byte
    split
    · simp; assumption
    · rcases hr : m.read (sp_as_u16 ((sp + 1) % 256)) with e | v
      · have hno := read_no_stack_overflow m (sp_as_u16 ((sp + 1) % 256))
        rw [hr] at hno
        simp_all
      · simp_all
  · intro h; unfold pop_byte; simp [h]
  · unfold push_word
    split
    · simp; assumption
    · rcases hw : m.write_word (sp_as_u16 sp - 1) value with ⟨m₁, e⟩
      have hno := write_word_no_stack_overflow m (sp_as_u16 sp - 1) value
      rw [hw] at hno
      cases e <;> simp_all
  · intro h; unfold push_word; simp [h]
  · unfold pop_word
    split
    · simp; assumption
    · rcases hr : m.read_word (sp_as_u16 ((sp + 1) % 256)) with e | v
      · have hno := read_word_no_stack_overflow m (sp_as_u16 ((sp + 1) % 256))
        rw [hr] at hno
        simp_all
      · simp_all
  · intro h; unfold pop_word; simp [h]

/-- Little-endian recombination: for a byte-sized low part, the bitwise
`hi <<< 8 ||| lo` of the source is plain arithmetic. -/
theorem shiftLeft8_or (hi lo : Nat) (h : lo < 256) :
    hi <<< 8 ||| lo = 256 * hi + lo := by
  have hb : lo < 2 ^ 8 := by norm_num [h]
  calc hi <<< 8 ||| lo = 2 ^ 8 * hi ||| lo := by
        rw [Nat.shiftLeft_eq, Nat.mul_comm]
    _ = 2 ^ 8 * hi + lo := (Nat.mul_add_lt_is_or hb hi).symm
    _ = 256 * hi + lo := by norm_num

/-- A word assembled from two bytes fits in 16 bits. -/
theorem shiftLeft8_or_lt (hi lo : Nat) (hh : hi < 256) (hl : lo < 256) :
    hi <<< 8 ||| lo < 65536 := by
  rw [shiftLeft8_or hi lo hl]
  omega

/-- The stack page base: `0x0100 | sp` is `0x0100 + sp` for a byte-sized SP. -/
theorem or256_eq (sp : Nat) (h : sp < 256) : 0x0100 ||| sp = 0x0100 + sp := by
  have hb : sp < 2 ^ 8 := by norm_num [h]
  have h2 := (Nat.mul_add_lt_is_or hb 1).symm
  norm_num at h2
  exact h2

/-- C7: for the Indirect addressing mode, the effective address is the
little-endian word whose low byte is read at the fetched 16-bit pointer P
and whose high byte is read at P + 1 — except when the low byte of P is
0xFF, in which case the high byte is read from P &&& 0xFF00 (the documented
6502 indirect-JMP page-wrap bug).  PC advances past the two pointer bytes. -/
theorem indirect_page_wrap (c : CpuImpl) (p : Nat)
    (hp : p = c.memory.memory (c.pc + 1) <<< 8 ||| c.memory.memory c.pc)
    (hsize : c.memory.size = 65536) (hpc : c.pc + 1 < 65536)
    (hlo : c.memory.memory c.pc < 256) (hhi : c.memory.memory (c.pc + 1) < 256) :
    get_effective_address .indirect c =
      ({ c with pc := c.pc + 2 },
        .ok (c.memory.memory (if p &&& 0xFF = 0xFF then p &&& 0xFF00 else p + 1) <<< 8 |||
          c.memory.memory p)) := by
  have h1 : ¬ (c.memory.size ≤ c.pc) := by omega
  have h2 : ¬ (c.memory.size ≤ c.pc + 1) := by omega
  have hpb : p < 65536 := hp ▸ shiftLeft8_or_lt _ _ hhi hlo
  have h3 : ¬ (c.memory.size ≤ p) := by omega
  simp only [get_effective_address, fetch_word_at_pc, fetch_byte_at_pc, MemoryImpl.read,
    if_neg h1, if_neg h2]
  rw [← hp]
  by_cases hcase : p &&& 0xFF = 0xFF
  · have h4 : ¬ (c.memory.size ≤ p &&& 0xFF00) :=
      fun hle => h3 (le_trans hle Nat.and_le_left)
    simp only [if_pos hcase, MemoryImpl.read, if_neg h3, if_neg h4]
  · have hne : p ≠ 65535 := by
      intro hh
      exact hcase (by rw [hh]; decide)
    have h5 : ¬ (c.memory.size ≤ p + 1) := by omega
    simp only [if_neg hcase, MemoryImpl.read, if_neg h3, if_neg h5]

/-- Witness for C7: the page-wrap theorem evaluated at a concrete state with
pointer 0x02FF, low byte 0x34 at 0x02FF and high byte 0x12 at 0x0200 (not
0x0300): the effective address is 0x1234. -/
theorem indirect_page_wrap_witness :
    get_effective_address .indirect indCpu = ({ indCpu with pc := 0x0303 }, .ok 0x1234) := by
  have h := indirect_page_wrap indCpu 0x02FF (by decide) (by decide) (by decide)
    (by decide) (by decide)
  rw [h]
  rfl

/-- C9: from a state whose PC points just past the JSR opcode of a 3-byte
JSR Absolute instruction (with room on the stack and no read-only range over
the stack page), JSR jumps to the absolute target after pushing the address
of the last byte of the instruction (entry PC + 1) as a word, and a
subsequent RTS pops that word and sets PC to it plus one — the byte
immediately following the JSR instruction (entry PC + 2) — restoring SP. -/
theorem jsr_rts_restores_pc (c : CpuImpl)
    (hsize : c.memory.size = 65536) (hranges : c.memory.ranges = [])
    (hpc : c.pc + 2 < 65536)
    (hlo : c.memory.memory c.pc < 256) (hhi : c.memory.memory (c.pc + 1) < 256)
    (hsp1 : 2 ≤ c.sp) (hsp2 : c.sp ≤ 0xFF) :
    (execute_jsr .absolute c).2 = .ok ∧
    (execute_jsr .absolute c).1.pc =
      c.memory.memory (c.pc + 1) <<< 8 ||| c.memory.memory c.pc ∧
    (execute_jsr .absolute c).1.sp = c.sp - 2 ∧
    (execute_jsr .absolute c).1.memory.memory (256 + c.sp - 1) = (c.pc + 1) % 256 ∧
    (execute_jsr .absolute c).1.memory.memory (256 + c.sp) = (c.pc + 1) / 256 ∧
    (execute_rts .implied (execute_jsr .absolute c).1).2 = .ok ∧
    (execute_rts .implied (execute_jsr .absolute c).1).1.pc = c.pc + 2 ∧
    (execute_rts .implied (execute_jsr .absolute c).1).1.sp = c.sp := by
  have n1 : ¬ ((65536 : Nat) ≤ c.pc) := by omega
  have n2 : ¬ ((65536 : Nat) ≤ c.pc + 1) := by omega
  have nt : ¬ ((65536 : Nat) ≤ c.memory.memory (c.pc + 1) <<< 8 ||| c.memory.memory c.pc) := by
    have := shiftLeft8_or_lt _ _ hhi hlo
    omega
  have g1 : ¬ (c.sp ≤ 1) := by omega
  have e4 : (256 : Nat) ||| c.sp = 256 + c.sp := or256_eq _ (by omega)
  have e5 : (256 : Nat) ||| (c.sp - 1) = 256 + (c.sp - 1) := or256_eq _ (by omega)
  have w1 : ¬ ((65536 : Nat) ≤ 256 + c.sp - 1) := by omega
  have w2 : ¬ ((65536 : Nat) ≤ 256 + c.sp - 1 + 1) := by omega
  have e1 : (c.sp + 254) % 256 = c.sp - 2 := by omega
  have g2 : ¬ ((254 : Nat) ≤ c.sp - 2) := by omega
  have e2 : (c.sp - 2 + 1) % 256 = c.sp - 1 := by omega
  have e3 : (c.sp - 1 + 1) % 256 = c.sp := by omega
  have e6 : c.pc + 1 + 1 - 1 = c.pc + 1 := by omega
  have e7 : 256 + c.sp - 1 + 1 = 256 + c.sp := by omega
  have e8 : 256 + (c.sp - 1) = 256 + c.sp - 1 := by omega
  have n3 : ¬ ((65536 : Nat) ≤ c.pc + 1 + 1) := by omega
  have e9 : (c.pc + 1) >>> 8 % 256 = (c.pc + 1) / 256 := by
    rw [Nat.shiftRight_eq_div_pow]
    omega
  have hml : (c.pc + 1) % 256 < 256 := Nat.mod_lt _ (by norm_num)
  have r1 : ((c.pc + 1) / 256) <<< 8 ||| (c.pc + 1) % 256 = c.pc + 1 := by
    rw [shiftLeft8_or _ _ hml]
    omega
  have w3 : ¬ ((65536 : Nat) ≤ 256 + c.sp) := by omega
  have d1 : ¬ (256 + c.sp - 1 = 256 + c.sp) := by omega
  have d2 : ¬ (256 + c.sp = 256 + c.sp - 1) := by omega
  have m1 : ¬ (AddressingMode.implied ≠ AddressingMode.implied) := fun h => h rfl
  have e10 : c.pc + 1 + 1 = c.pc + 2 := by omega
  simp only [execute_jsr, execute_rts, get_effective_address, fetch_word_at_pc,
    fetch_byte_at_pc, MemoryImpl.read, MemoryImpl.read_word, set_pc, push_word, pop_word,
    MemoryImpl.write_word, MemoryImpl.write, MemoryImpl.write_byte, sp_as_u16,
    hsize, hranges, if_neg m1,
    if_neg n1, if_neg n2, if_neg nt, if_neg g1, e4, e5, e8, e6, e7, if_neg w1, if_neg w2,
    e1, if_neg g2, e2, e3, if_neg n3, if_neg d1, if_neg d2, e9, r1, if_neg w3,
    List.any_nil, Bool.not_false, Bool.true_and, Bool.and_false, Bool.false_eq_true, if_false,
    if_true, e10]
  exact ⟨trivial, trivial, trivial, trivial, trivial, trivial, trivial, trivial⟩

/-- Witness for C9: the JSR/RTS theorem applied to a concrete state (JSR at
0x0123 targeting 0x5432, SP = 0xFF): after JSR then RTS the program counter
is 0x0126, the byte just past the JSR instruction. -/
theorem jsr_rts_restores_pc_witness :
    2 ≤ jsrCpu.sp ∧
    (execute_jsr .absolute jsrCpu).1.pc = 0x5432 ∧
    (execute_rts .implied (execute_jsr .absolute jsrCpu).1).1.pc = 0x0126 := by
  have h := jsr_rts_restores_pc jsrCpu (by decide) (by decide) (by decide) (by decide)
    (by decide) (by decide) (by decide)
  refine ⟨by decide, ?_, ?_⟩
  · rw [h.2.1]
    rfl
  · rw [h.2.2.2.2.2.2.1]
    rfl

end Emu6502
